import Mathlib

/-!
# Navigation and command engine of the `ff` file browser

A shallow embedding of `gui/keybindings.go`: `GlobalKeybinding`, the input
capture and the selection handler installed by `EntryManagerKeybinding`, and
the callbacks of the prompts they open.

* Go strings are Lean strings, Go `int` is `Int`, a Go `map[string]T` is a
  function `String → Option T` and indexing a map yields the zero value on a
  missing key.
* A `*Entry` that may be `nil` is an `Option Entry`.
* The calls into package `system` and the directory read behind `SetEntries`
  are fields of `System`; every such call is recorded in the ghost field
  `Gui.trace`, so that "calls no primitive" and "calls exactly once" can be
  stated.
* A nil-pointer dereference is the outcome `Except.error GoPanic.nilDereference`,
  an index out of range `Except.error GoPanic.indexOutOfRange`.
* `Table.Select` fires the selection-changed handler that
  `EntryManagerKeybinding` installs, so every `Select` made by a key binding
  runs that handler.
* `log.Println` and the colours of table cells are not part of the state.
-/

namespace FF

/-! ## `path/filepath` on Unix -/

/-- The components of a path between its separators. -/
def splitSlash : List Char → List (List Char)
  | [] => [[]]
  | c :: cs =>
    if c = '/' then [] :: splitSlash cs
    else
      match splitSlash cs with
      | [] => [[c]]
      | h :: t => (c :: h) :: t

/-- One step of `filepath.Clean`: `stack` holds the components kept so far,
innermost first. Empty components and `.` are dropped, `..` removes the
previous component unless there is none to remove. -/
def cleanStep (rooted : Bool) (stack : List (List Char)) (comp : List Char) :
    List (List Char) :=
  if comp = [] ∨ comp = ['.'] then stack
  else if comp = ['.', '.'] then
    match stack with
    | top :: rest => if top = ['.', '.'] then comp :: stack else rest
    | [] => if rooted then [] else [comp]
  else comp :: stack

/-- Components joined with the separator. -/
def joinSlash : List (List Char) → List Char
  | [] => []
  | [c] => c
  | c :: d :: rest => c ++ '/' :: joinSlash (d :: rest)

/-- Go `filepath.Clean` on a list of characters. -/
def cleanChars (path : List Char) : List Char :=
  let rooted : Bool := path.head? = some '/'
  let kept := ((splitSlash path).foldl (cleanStep rooted) []).reverse
  if rooted then '/' :: joinSlash kept
  else if kept = [] then ['.'] else joinSlash kept

/-- Go `filepath.Clean`. -/
def Clean (path : String) : String := String.mk (cleanChars path.data)

/-- The part of a path up to and including its last separator. -/
def upToLastSlash (path : List Char) : List Char :=
  (path.reverse.dropWhile (fun c => c ≠ '/')).reverse

/-- Go `filepath.Dir`: all but the last element of the path, cleaned. -/
def Dir (path : String) : String := String.mk (cleanChars (upToLastSlash path.data))

/-- Go `filepath.Join` of two elements: empty elements are ignored and the
result is cleaned; the join of two empty elements is empty. -/
def Join (a b : String) : String :=
  if a ≠ "" then Clean (a ++ "/" ++ b)
  else if b ≠ "" then Clean b
  else ""


/-! ## Data model -/

/-- One row of a directory listing: `*Entry` of package `gui`, with the three
fields the key bindings read. -/
structure Entry where
  Name : String
  PathName : String
  IsDir : Bool
deriving DecidableEq, Repr

/-- A Go `error` value, identified by its message. -/
structure GoError where
  msg : String
deriving DecidableEq, Repr

def ErrNoDirName : GoError := ⟨"no directory name"⟩
def ErrNoFileName : GoError := ⟨"no file name"⟩
def ErrNoFileOrDirName : GoError := ⟨"no file or directory name"⟩
def ErrNoFileOrDir : GoError := ⟨"no file or directory"⟩
def ErrNoNewName : GoError := ⟨"no new name"⟩

/-- Run-time failures of the Go program that end the process. -/
inductive GoPanic
  | nilDereference
  | indexOutOfRange
deriving DecidableEq, Repr

/-- The `tcell` keys the bindings distinguish; `Rune` is any printable key. -/
inductive Key
  | Tab
  | Escape
  | Enter
  | Rune
deriving DecidableEq, Repr

/-- A `*tcell.EventKey`. -/
structure EventKey where
  Key : Key
  Rune : Char
deriving DecidableEq, Repr

/-- The event of typing the printable character `c`. -/
def press (c : Char) : EventKey := ⟨Key.Rune, c⟩

/-- A call that leaves the program: the ghost record kept in `Gui.trace`. -/
inductive Call
  | ReadDir (path : String)
  | RemoveDirAll (path : String)
  | RemoveFile (path : String)
  | CopyFile (src dst : String)
  | NewDir (path : String)
  | NewFile (path : String)
  | Rename (src dst : String)
  | ExecCmd (cmd arg : String)
deriving DecidableEq, Repr

/-- The collaborators outside `keybindings.go`, over a world `W` (the file
system and the process environment): the functions of package `system`, the
directory read behind `EntryManager.SetEntries`, `os.Getenv` and `gui.ExecCmd`.
A mutating primitive returns its error, if any, and the world it leaves. -/
structure System (W : Type) where
  ReadDir : String → W → List Entry
  RemoveDirAll : String → W → Option GoError × W
  RemoveFile : String → W → Option GoError × W
  CopyFile : String → String → W → Option GoError × W
  NewDir : String → W → Option GoError × W
  NewFile : String → W → Option GoError × W
  Rename : String → String → W → Option GoError × W
  Getenv : String → W → String
  ExecCmd : String → String → W → Option GoError × W

/-- The closures handed to `gui.Confirm` and `gui.Form`, by the key that
creates them. The paste closure captures the local variable `source`. -/
inductive Callback
  | remove
  | paste (source : Entry)
  | mkdir
  | rename
  | newFile
deriving DecidableEq, Repr

/-- The prompt that owns the input focus, with the arguments of the call that
opened it. -/
inductive Modal
  | Confirm (message doneLabel : String) (callback : Callback)
  | Form (fields : List (String × String)) (doneLabel title pageName : String)
      (height : Int) (callback : Callback)
deriving DecidableEq, Repr

/-- The widget that holds the input focus. -/
inductive Focus
  | InputPath
  | EntryManager
  | Modal
deriving DecidableEq, Repr

/-- The table of entries, `gui.EntryManager`: the listing, the remembered row
of each path (`SelectionMemory`), the selected cell and the scroll offset. -/
structure EntryManager where
  entries : List Entry
  selectPos : String → Option Int
  row : Int
  column : Int
  rowOffset : Int
  columnOffset : Int

/-- The clipboard, `gui.Register`. -/
structure Register where
  CopySource : Option Entry
deriving DecidableEq, Repr

/-- The application state `*Gui`. `InputPath` is the text of the path field,
`Preview` the entry last handed to the preview pane, `stopped` whether
`gui.Stop` was called; `world` and `trace` are the outside world and the calls
made into it. -/
structure Gui (W : Type) where
  InputPath : String
  EntryManager : EntryManager
  Register : Register
  enablePreview : Bool
  Preview : Option Entry
  focus : Focus
  modal : Option Modal
  stopped : Bool
  world : W
  trace : List Call

/-! ## The entry table -/

/-- `Table.GetSelection`: the selected row and column. -/
def EntryManager.GetSelection (m : EntryManager) : Int × Int := (m.row, m.column)

/-- The first half of `Table.Select`: the selected cell is set. The second
half, firing the selection-changed handler, is in `Gui.Select`. -/
def EntryManager.setSelected (row column : Int) (m : EntryManager) : EntryManager :=
  { m with row := row, column := column }

/-- `Table.SetOffset`. -/
def EntryManager.SetOffset (row column : Int) (m : EntryManager) : EntryManager :=
  { m with rowOffset := row, columnOffset := column }

/-- `EntryManager.Entries`. -/
def EntryManager.Entries (m : EntryManager) : List Entry := m.entries

/-- Modelled from the spec: `Table.GetRowCount` after `SetEntries` is missing
from the sources. The table shows a header at row 0 and the entries from row 1
on ("header row offset"; `Entries()[row-1]` in the selection handler), so it
has one row more than the listing has entries. -/
def EntryManager.GetRowCount (m : EntryManager) : Int := (m.entries.length : Int) + 1

/-- Modelled from the spec: `EntryManager.SetSelectPos` is missing from the
sources. "Record current path's selection row into SelectionMemory." -/
def EntryManager.SetSelectPos (path : String) (m : EntryManager) : EntryManager :=
  { m with selectPos := fun k => if k = path then some m.GetSelection.1 else m.selectPos k }

/-- Modelled from the spec: `EntryManager.GetSelectEntry` is missing from the
sources. "Returns the entry at the active row, or none if the listing is empty
or the row is the header"; a row with no entry has none either. -/
def EntryManager.GetSelectEntry (m : EntryManager) : Option Entry :=
  if m.entries = [] ∨ m.row ≤ 0 then none else m.entries[(m.row - 1).toNat]?

/-- Modelled from the spec: the table part of `EntryManager.SetEntries` is
missing from the sources. The listing is "replaced wholesale on every re-list"
and SelectionMemory is not touched; the row is re-clamped "to the new listing
length". -/
def EntryManager.setListing (listing : List Entry) (m : EntryManager) : EntryManager :=
  { m with entries := listing, row := min m.row (listing.length : Int) }

/-! ## Calls into the outside world -/

variable {W : Type}

/-- A call of a mutating primitive: the world moves on, the call is recorded,
the error is handed back. -/
def Gui.syscall (c : Call) (prim : W → Option GoError × W) (gui : Gui W) :
    Option GoError × Gui W :=
  ((prim gui.world).1, { gui with world := (prim gui.world).2, trace := gui.trace ++ [c] })

/-- `gui.EntryManager.SetEntries(path)`: read the directory and show it. -/
def Gui.SetEntries (sys : System W) (path : String) (gui : Gui W) : Gui W :=
  { gui with
    EntryManager := gui.EntryManager.setListing (sys.ReadDir path gui.world)
    trace := gui.trace ++ [Call.ReadDir path] }

/-- `gui.InputPath.SetText`. -/
def Gui.SetText (text : String) (gui : Gui W) : Gui W := { gui with InputPath := text }

/-- Modelled from the spec: `Preview.UpdateView` is missing from the sources;
the pane is refreshed "from the new selection". -/
def Gui.UpdateView (entry : Option Entry) (gui : Gui W) : Gui W := { gui with Preview := entry }

/-- The tail shared by both navigation keys:
`if gui.enablePreview { gui.Preview.UpdateView(gui, gui.EntryManager.GetSelectEntry()) }`. -/
def Gui.refreshPreview (gui : Gui W) : Gui W :=
  if gui.enablePreview then gui.UpdateView gui.EntryManager.GetSelectEntry else gui

/-- The selection-changed handler installed by `EntryManagerKeybinding`:
`if row > 0 { if gui.enablePreview { f := Entries()[row-1]; UpdateView(gui, f) } }`.
The index is not checked: a row beyond the listing is an index out of range. -/
def SelectionChanged (row _column : Int) (gui : Gui W) : Except GoPanic (Gui W) :=
  if row > 0 then
    if gui.enablePreview then
      match gui.EntryManager.Entries[(row - 1).toNat]? with
      | none => Except.error GoPanic.indexOutOfRange
      | some f => Except.ok (gui.UpdateView (some f))
    else Except.ok gui
  else Except.ok gui

/-- `Table.Select` on the entry table: the cell is selected, then the
selection-changed handler is fired with it. -/
def Gui.Select (row column : Int) (gui : Gui W) : Except GoPanic (Gui W) :=
  SelectionChanged row column
    { gui with EntryManager := gui.EntryManager.setSelected row column }

/-- Modelled from the spec: `EntryManager.RestorePos` is missing from the
sources. "Look up SelectionMemory for the path (default row = first selectable
row) and restore it"; the first selectable row is row 1, below the header. The
row is restored with `Select`. -/
def Gui.RestorePos (path : String) (gui : Gui W) : Except GoPanic (Gui W) :=
  gui.Select ((gui.EntryManager.selectPos path).getD 1) 0

/-- Modelled from the spec: `hasEntry` is missing from the sources; the keys it
guards have the precondition "a selection exists". -/
def hasEntry (gui : Gui W) : Bool := gui.EntryManager.GetSelectEntry.isSome

/-- Indexing a Go `map[string]string`: the zero value on a missing key. -/
def mapIndex (values : String → Option String) (key : String) : String :=
  (values key).getD ""

/-! ## `GlobalKeybinding` -/

/-- The body of the `h` case once `parent != ""` holds. -/
def goToParent (sys : System W) (current parent : String) (gui : Gui W) :
    Except GoPanic (Gui W) :=
  -- save select position
  let gui := { gui with EntryManager := gui.EntryManager.SetSelectPos current }
  -- update entries
  let gui := gui.SetText parent
  let gui := gui.SetEntries sys parent
  let gui := { gui with EntryManager := gui.EntryManager.SetOffset 0 0 }
  -- restore select position
  match gui.RestorePos parent with
  | Except.error p => Except.error p
  | Except.ok gui => Except.ok gui.refreshPreview

/-- The clamp of the `l` case:
`row, _ := GetSelection(); count := GetRowCount(); if row > count { Select(count-1, 0) }`. -/
def clampSelection (gui : Gui W) : Except GoPanic (Gui W) :=
  let row := gui.EntryManager.GetSelection.1
  let count := gui.EntryManager.GetRowCount
  if row > count then gui.Select (count - 1) 0 else Except.ok gui

/-- The body of the `l` case once `entry != nil && entry.IsDir` holds. -/
def enterChild (sys : System W) (entry : Entry) (gui : Gui W) : Except GoPanic (Gui W) :=
  -- save select position
  let gui := { gui with EntryManager := gui.EntryManager.SetSelectPos gui.InputPath }
  let gui := gui.SetEntries sys entry.PathName
  let gui := gui.SetText entry.PathName
  match gui.RestorePos entry.PathName with
  | Except.error p => Except.error p
  | Except.ok gui =>
    match clampSelection gui with
    | Except.error p => Except.error p
    | Except.ok gui => Except.ok gui.refreshPreview

/-- `Gui.GlobalKeybinding`: Tab moves the focus to the path field, `h` goes to
the parent directory, `l` enters the selected directory. -/
def GlobalKeybinding (sys : System W) (event : EventKey) (gui : Gui W) :
    Except GoPanic (Gui W) :=
  if event.Key = Key.Tab then
    Except.ok { gui with focus := Focus.InputPath }
  else if event.Rune = 'h' then
    let current := gui.InputPath
    let parent := Dir current
    if parent ≠ "" then goToParent sys current parent gui else Except.ok gui
  else if event.Rune = 'l' then
    match gui.EntryManager.GetSelectEntry with
    | some entry => if entry.IsDir then enterChild sys entry gui else Except.ok gui
    | none => Except.ok gui
  else Except.ok gui

/-! ## The callbacks of the prompts -/

/-- The closing lines of every callback: re-list the current path, no error. -/
def refresh (sys : System W) (gui : Gui W) : Option GoError × Gui W :=
  (none, gui.SetEntries sys gui.InputPath)

/-- The callback of the `d` confirmation. -/
def removeCallback (sys : System W) (gui : Gui W) : Option GoError × Gui W :=
  match gui.EntryManager.GetSelectEntry with
  | none => (none, gui)
  | some entry =>
    let r :=
      if entry.IsDir then
        gui.syscall (Call.RemoveDirAll entry.PathName) (sys.RemoveDirAll entry.PathName)
      else
        gui.syscall (Call.RemoveFile entry.PathName) (sys.RemoveFile entry.PathName)
    match r.1 with
    | some err => (some err, r.2)
    | none => refresh sys r.2

/-- The callback of the `p` form; `source` is the variable captured when the
key was pressed. -/
def pasteCallback (sys : System W) (source : Entry) (values : String → Option String)
    (gui : Gui W) : Option GoError × Gui W :=
  let name := mapIndex values "name"
  if name = "" then (some ErrNoNewName, gui)
  else
    let target := Join gui.InputPath name
    let r := gui.syscall (Call.CopyFile source.PathName target)
      (sys.CopyFile source.PathName target)
    match r.1 with
    | some err => (some err, r.2)
    | none => refresh sys r.2

/-- The callback of the `m` form. -/
def mkdirCallback (sys : System W) (values : String → Option String) (gui : Gui W) :
    Option GoError × Gui W :=
  let name := mapIndex values "name"
  if name = "" then (some ErrNoDirName, gui)
  else
    let target := Join gui.InputPath name
    let r := gui.syscall (Call.NewDir target) (sys.NewDir target)
    match r.1 with
    | some err => (some err, r.2)
    | none => refresh sys r.2

/-- The callback of the `r` form. -/
def renameCallback (sys : System W) (values : String → Option String) (gui : Gui W) :
    Option GoError × Gui W :=
  let name := mapIndex values "new name"
  if name = "" then (some ErrNoFileName, gui)
  else
    let current := gui.InputPath
    match gui.EntryManager.GetSelectEntry with
    | none => (some ErrNoFileOrDir, gui)
    | some entry =>
      let target := Join current name
      let r := gui.syscall (Call.Rename entry.PathName target)
        (sys.Rename entry.PathName target)
      match r.1 with
      | some err => (some err, r.2)
      | none => refresh sys r.2

/-- The callback of the `n` form. -/
def newFileCallback (sys : System W) (values : String → Option String) (gui : Gui W) :
    Option GoError × Gui W :=
  let name := mapIndex values "name"
  if name = "" then (some ErrNoFileOrDirName, gui)
  else
    let target := Join gui.InputPath name
    let r := gui.syscall (Call.NewFile target) (sys.NewFile target)
    match r.1 with
    | some err => (some err, r.2)
    | none => refresh sys r.2

/-- Running a closure on the submitted values (a confirmation has none). -/
def Callback.run (sys : System W) (values : String → Option String) :
    Callback → Gui W → Option GoError × Gui W
  | Callback.remove => removeCallback sys
  | Callback.paste source => pasteCallback sys source values
  | Callback.mkdir => mkdirCallback sys values
  | Callback.rename => renameCallback sys values
  | Callback.newFile => newFileCallback sys values

/-! ## The prompts -/

/-- Modelled from the spec: `gui.Confirm` and `gui.Form` are missing from the
sources. Opening a prompt makes it the one active modal, which "exclusively
owns input focus". -/
def Gui.openModal (modal : Modal) (gui : Gui W) : Gui W :=
  { gui with modal := some modal, focus := Focus.Modal }

/-- The closure of a prompt. -/
def Modal.callback : Modal → Callback
  | Modal.Confirm _ _ cb => cb
  | Modal.Form _ _ _ _ _ cb => cb

/-- Modelled from the spec: the resolution of a prompt is missing from the
sources. On confirm or submit "the action callback runs to completion before
control returns to Normal state, and its returned error (if any) is logged but
does not reopen the modal"; the focus goes back to the widget named in the
call, the entry table. The error is handed back for inspection. -/
def Gui.submit (sys : System W) (values : String → Option String) (gui : Gui W) :
    Option GoError × Gui W :=
  match gui.modal with
  | none => (none, gui)
  | some modal =>
    let r := modal.callback.run sys values gui
    (r.1, { r.2 with modal := none, focus := Focus.EntryManager })

/-- Modelled from the spec: "Escape cancels without invoking the callback". -/
def Gui.cancel (gui : Gui W) : Gui W :=
  match gui.modal with
  | none => gui
  | some _ => { gui with modal := none, focus := Focus.EntryManager }

/-! ## `EntryManagerKeybinding` -/

/-- The switch on the rune that follows `GlobalKeybinding` in the input
capture of the entry table. -/
def runeSwitch (sys : System W) (event : EventKey) (gui : Gui W) : Except GoPanic (Gui W) :=
  if event.Rune = 'd' then
    if !hasEntry gui then Except.ok gui
    else Except.ok (gui.openModal
      (Modal.Confirm "do you want to remove this?" "yes" Callback.remove))
  else if event.Rune = 'y' then
    if !hasEntry gui then Except.ok gui
    else
      let entry := gui.EntryManager.GetSelectEntry
      Except.ok { gui with Register := { gui.Register with CopySource := entry } }
  else if event.Rune = 'p' then
    match gui.Register.CopySource with
    | none => Except.error GoPanic.nilDereference
    | some source =>
      Except.ok (gui.openModal
        (Modal.Form [("name", source.Name)] "paste" "new name" "new_name" 7
          (Callback.paste source)))
  else if event.Rune = 'e' then
    let editor := sys.Getenv "EDITOR" gui.world
    if editor = "" then Except.ok gui
    else
      match gui.EntryManager.GetSelectEntry with
      | none => Except.ok gui
      | some entry =>
        let gui := (gui.syscall (Call.ExecCmd editor entry.PathName)
          (sys.ExecCmd editor entry.PathName)).2
        Except.ok gui.refreshPreview
  else if event.Rune = 'm' then
    Except.ok (gui.openModal
      (Modal.Form [("name", "")] "create" "new direcotry" "create_directory" 7 Callback.mkdir))
  else if event.Rune = 'r' then
    Except.ok (gui.openModal
      (Modal.Form [("new name", "")] "rename" "new name" "rename" 7 Callback.rename))
  else if event.Rune = 'n' then
    Except.ok (gui.openModal
      (Modal.Form [("name", "")] "create" "new file" "create_file" 7 Callback.newFile))
  else if event.Rune = 'q' then
    Except.ok { gui with stopped := true }
  else Except.ok gui

/-- The input capture of the entry table: `GlobalKeybinding` first, then the
switch on the rune. -/
def EntryManagerInputCapture (sys : System W) (event : EventKey) (gui : Gui W) :
    Except GoPanic (Gui W) :=
  match GlobalKeybinding sys event gui with
  | Except.error p => Except.error p
  | Except.ok gui => runeSwitch sys event gui

/-- The user moves the highlight to `row` with the table's own movement keys:
the table selects the row and fires the selection-changed handler. -/
def moveSelection (row : Int) (gui : Gui W) : Except GoPanic (Gui W) :=
  gui.Select row gui.EntryManager.GetSelection.2

/-! ## Consecutive pastes -/

/-- The form values in which `name` was entered in the field `name`. -/
def nameValues (name : String) : String → Option String :=
  fun k => if k = "name" then some name else none

/-- One paste: `p` is pressed and the form is submitted with `name`. -/
def pasteWith (sys : System W) (name : String) (gui : Gui W) : Except GoPanic (Gui W) :=
  match EntryManagerInputCapture sys (press 'p') gui with
  | Except.error p => Except.error p
  | Except.ok gui => Except.ok (gui.submit sys (nameValues name)).2

/-- Pastes one after the other, one for each submitted name. -/
def pasteAll (sys : System W) : List String → Gui W → Except GoPanic (Gui W)
  | [], gui => Except.ok gui
  | name :: names, gui =>
    match pasteWith sys name gui with
    | Except.error p => Except.error p
    | Except.ok gui => pasteAll sys names gui

/-- The copies among a list of calls. -/
def copyCalls (calls : List Call) : List Call :=
  calls.filter (fun c => match c with
    | Call.CopyFile _ _ => true
    | _ => false)

/-- What a command that was aborted after its one call `c` leaves behind: the
path text, the entry table (listing, selected cell, scroll offset and
SelectionMemory) and the Register are those of `gui`, and `c` is the only call
made, so the directory was not read again. -/
def abortedAfter (c : Call) (gui gui' : Gui W) : Prop :=
  gui'.InputPath = gui.InputPath ∧ gui'.EntryManager = gui.EntryManager ∧
  gui'.Register = gui.Register ∧ gui'.trace = gui.trace ++ [c]

/-! ## A small file system for the worked examples -/

/-- The listings of the directories that exist, by cleaned path; a read-only
file system refuses every change. -/
structure SimFS where
  dirs : List (String × List Entry)
  readOnly : Bool
  editor : String
deriving DecidableEq, Repr

/-- The last element of a path. -/
def lastElement (path : String) : String :=
  String.mk (path.data.reverse.takeWhile (fun c => c ≠ '/')).reverse

/-- The listing of a directory; empty when there is no such directory. -/
def SimFS.readDir (path : String) (w : SimFS) : List Entry :=
  (w.dirs.lookup (Clean path)).getD []

/-- Whether the parent of `path` lists `path`. -/
def SimFS.exists (path : String) (w : SimFS) : Bool :=
  (w.readDir (Dir path)).any (fun e => e.PathName = path)

/-- The entry is added to the listing of its parent; a directory gets an
empty listing of its own. -/
def SimFS.add (e : Entry) (w : SimFS) : SimFS :=
  { w with
    dirs := (w.dirs.map (fun d => if d.1 = Dir e.PathName then (d.1, d.2 ++ [e]) else d))
      ++ (if e.IsDir then [(e.PathName, [])] else []) }

/-- The path leaves every listing and loses its own. -/
def SimFS.remove (path : String) (w : SimFS) : SimFS :=
  { w with
    dirs := (w.dirs.filter (fun d => d.1 ≠ path)).map
      (fun d => (d.1, d.2.filter (fun e => e.PathName ≠ path))) }

/-- Create a directory or an empty file. -/
def SimFS.create (isDir : Bool) (path : String) (w : SimFS) : Option GoError × SimFS :=
  if w.readOnly then (some ⟨"read-only file system"⟩, w)
  else if w.exists path then (some ⟨"file exists"⟩, w)
  else (none, w.add ⟨lastElement path, path, isDir⟩)

/-- Remove a file or a directory. -/
def SimFS.delete (path : String) (w : SimFS) : Option GoError × SimFS :=
  if w.readOnly then (some ⟨"read-only file system"⟩, w)
  else if w.exists path then (none, w.remove path)
  else (some ⟨"no such file or directory"⟩, w)

/-- Move `src` to `dst`. -/
def SimFS.rename (src dst : String) (w : SimFS) : Option GoError × SimFS :=
  if w.readOnly then (some ⟨"read-only file system"⟩, w)
  else if w.exists src then (none, (w.remove src).add ⟨lastElement dst, dst, false⟩)
  else (some ⟨"no such file or directory"⟩, w)

/-- Copy the file `src` to `dst`. -/
def SimFS.copy (src dst : String) (w : SimFS) : Option GoError × SimFS :=
  if w.readOnly then (some ⟨"read-only file system"⟩, w)
  else if w.exists src then (none, w.add ⟨lastElement dst, dst, false⟩)
  else (some ⟨"no such file or directory"⟩, w)

/-- The primitives over the small file system. -/
def simSystem : System SimFS where
  ReadDir := SimFS.readDir
  RemoveDirAll := SimFS.delete
  RemoveFile := SimFS.delete
  CopyFile := SimFS.copy
  NewDir := SimFS.create true
  NewFile := SimFS.create false
  Rename := SimFS.rename
  Getenv := fun name w => if name = "EDITOR" then w.editor else ""
  ExecCmd := fun _ _ w => (none, w)

/-- The entries of the example tree. -/
def notesTxt : Entry := ⟨"notes.txt", "/home/alice/notes.txt", false⟩
def projects : Entry := ⟨"projects", "/home/alice/projects", true⟩
def fileA : Entry := ⟨"a.go", "/home/alice/projects/a.go", false⟩
def fileB : Entry := ⟨"b.go", "/home/alice/projects/b.go", false⟩
def fileC : Entry := ⟨"c.go", "/home/alice/projects/c.go", false⟩

/-- The tree `/home/alice/{notes.txt, projects/{a.go, b.go, c.go}}`. -/
def aliceFS : SimFS where
  dirs := [("/", [⟨"home", "/home", true⟩]),
    ("/home", [⟨"alice", "/home/alice", true⟩]),
    ("/home/alice", [notesTxt, projects]),
    ("/home/alice/projects", [fileA, fileB, fileC])]
  readOnly := false
  editor := "vi"

/-- The same tree after `c.go` was removed from `projects`. -/
def aliceFSShrunk : SimFS :=
  { aliceFS with
    dirs := [("/", [⟨"home", "/home", true⟩]),
      ("/home", [⟨"alice", "/home/alice", true⟩]),
      ("/home/alice", [notesTxt, projects]),
      ("/home/alice/projects", [fileA, fileB])] }

/-- The tree on a file system that refuses every change. -/
def aliceFSReadOnly : SimFS := { aliceFS with readOnly := true }

/-- The error of the read-only file system. -/
def errReadOnly : GoError := ⟨"read-only file system"⟩

/-- A fresh session showing `path` with the highlight on `row`: nothing
remembered, nothing copied, no prompt open. -/
def session (w : SimFS) (path : String) (row : Int) : Gui SimFS where
  InputPath := path
  EntryManager :=
    { entries := w.readDir path, selectPos := fun _ => none, row := row, column := 0,
      rowOffset := 0, columnOffset := 0 }
  Register := ⟨none⟩
  enablePreview := false
  Preview := none
  focus := Focus.EntryManager
  modal := none
  stopped := false
  world := w
  trace := []

/-- The root directory shown with the highlight on `home` and the view
scrolled down by three rows. -/
def rootScrolled : Gui SimFS :=
  { session aliceFS "/" 1 with
    EntryManager := { (session aliceFS "/" 1).EntryManager with rowOffset := 3 } }

/-- The session at `/home/alice` with the highlight on `projects`, after
`projects` was left on its row 3 (`c.go`) and then lost `c.go`: row 3 is
remembered for it and its listing now has three rows, 0 to 2. -/
def projectsRemembered : Gui SimFS :=
  { session aliceFSShrunk "/home/alice" 2 with
    EntryManager :=
      { (session aliceFSShrunk "/home/alice" 2).EntryManager with
        selectPos := fun k => if k = "/home/alice/projects" then some 3 else none } }

/-- Someone else changes the file system while the program waits for a key. -/
def Gui.worldBecomes (w : W) (gui : Gui W) : Gui W := { gui with world := w }

/-- The round trip: from `/home/alice` enter `projects`, move to its last row
(row 3, `c.go`), go back to the parent, where the highlight returns to
`projects`; `c.go` is removed meanwhile; enter `projects` again. -/
def roundTrip (after : SimFS) : Except GoPanic (Gui SimFS) :=
  match EntryManagerInputCapture simSystem (press 'l') (session aliceFS "/home/alice" 2) with
  | Except.error p => Except.error p
  | Except.ok gui =>
    match moveSelection 3 gui with
    | Except.error p => Except.error p
    | Except.ok gui =>
      match EntryManagerInputCapture simSystem (press 'h') gui with
      | Except.error p => Except.error p
      | Except.ok gui =>
        EntryManagerInputCapture simSystem (press 'l') (gui.worldBecomes after)

/-- The path shown, the selected row and the number of rows of the table at
the end of a run. -/
def outcome (run : Except GoPanic (Gui W)) : Option (String × Int × Int) :=
  match run with
  | Except.error _ => none
  | Except.ok gui => some (gui.InputPath, gui.EntryManager.row, gui.EntryManager.GetRowCount)

/-- What `read` sees in the state a run ends in; nothing after a panic. -/
def readAfter {α : Type} (run : Except GoPanic (Gui W)) (read : Gui W → α) : Option α :=
  match run with
  | Except.error _ => none
  | Except.ok gui => some (read gui)

/-- The root directory shown with the preview pane on and the highlight on
`home`. -/
def rootPreview : Gui SimFS := { session aliceFS "/" 1 with enablePreview := true }

/-- The root directory shown with the preview pane on and the highlight on its
second entry `tmp`, which has since been removed: the table still lists it. -/
def rootStale : Gui SimFS :=
  { session aliceFS "/" 2 with
    enablePreview := true
    EntryManager :=
      { (session aliceFS "/" 2).EntryManager with
        entries := [⟨"home", "/home", true⟩, ⟨"tmp", "/tmp", true⟩] } }

/-! ## Theorems -/

/-- C4: when the current selection is absent or is not a directory, pressing
`l` on the entry table leaves the whole application state as it was: the path
text, the listing, the selected row, SelectionMemory and the Register, and no
call is made. -/
theorem enterChild_nonDirectory_noop (sys : System W) (gui : Gui W)
    (h : gui.EntryManager.GetSelectEntry = none ∨
      ∃ entry, gui.EntryManager.GetSelectEntry = some entry ∧ entry.IsDir = false) :
    EntryManagerInputCapture sys (press 'l') gui = Except.ok gui := by
  have hg : GlobalKeybinding sys (press 'l') gui = Except.ok gui := by
    rcases h with h | ⟨entry, h, hdir⟩
    · simp [GlobalKeybinding, press, h]
    · simp [GlobalKeybinding, press, h, hdir]
  simp only [EntryManagerInputCapture, hg]
  simp [runeSwitch, press]

/-- C4 at a concrete state: the highlight is on the file `notes.txt`. -/
theorem enterChild_nonDirectory_noop_witness :
    EntryManagerInputCapture simSystem (press 'l') (session aliceFS "/home/alice" 1)
      = Except.ok (session aliceFS "/home/alice" 1) :=
  enterChild_nonDirectory_noop simSystem (session aliceFS "/home/alice" 1)
    (Or.inr ⟨notesTxt, by decide, by decide⟩)

/-- C6: submitting an empty name yields `ErrNoNewName` for paste,
`ErrNoDirName` for mkdir, `ErrNoFileOrDirName` for new file and `ErrNoFileName`
for rename, and the callback hands back the state it was given: no primitive
is called, the listing and everything else are unchanged. -/
theorem emptyName_rejected (sys : System W) (gui : Gui W) (source : Entry)
    (values : String → Option String)
    (hname : mapIndex values "name" = "") (hnew : mapIndex values "new name" = "") :
    pasteCallback sys source values gui = (some ErrNoNewName, gui) ∧
    mkdirCallback sys values gui = (some ErrNoDirName, gui) ∧
    newFileCallback sys values gui = (some ErrNoFileOrDirName, gui) ∧
    renameCallback sys values gui = (some ErrNoFileName, gui) := by
  simp [pasteCallback, mkdirCallback, newFileCallback, renameCallback, hname, hnew]

/-- C6 at a concrete state: the fields were left empty. -/
theorem emptyName_rejected_witness :
    pasteCallback simSystem notesTxt (fun _ => some "") (session aliceFS "/home/alice" 2)
        = (some ErrNoNewName, session aliceFS "/home/alice" 2) ∧
    mkdirCallback simSystem (fun _ => some "") (session aliceFS "/home/alice" 2)
        = (some ErrNoDirName, session aliceFS "/home/alice" 2) ∧
    newFileCallback simSystem (fun _ => some "") (session aliceFS "/home/alice" 2)
        = (some ErrNoFileOrDirName, session aliceFS "/home/alice" 2) ∧
    renameCallback simSystem (fun _ => some "") (session aliceFS "/home/alice" 2)
        = (some ErrNoFileName, session aliceFS "/home/alice" 2) :=
  emptyName_rejected simSystem (session aliceFS "/home/alice" 2) notesTxt (fun _ => some "")
    rfl rfl

/-- C7, as stated, fails: with no selection (the highlight is on the header)
and an empty new name, the rename callback returns `ErrNoFileName`, which is
not `ErrNoFileOrDir`. -/
theorem rename_noSelection_emptyName :
    (session aliceFS "/home/alice" 0).EntryManager.GetSelectEntry = none ∧
    (renameCallback simSystem (fun _ => some "") (session aliceFS "/home/alice" 0)).1
      = some ErrNoFileName ∧
    (renameCallback simSystem (fun _ => some "") (session aliceFS "/home/alice" 0)).1
      ≠ some ErrNoFileOrDir := by
  decide

/-- C7, amended: with no selection and a non-empty submitted new name, the
rename callback returns `ErrNoFileOrDir` and hands back the state it was given,
so no primitive is called. -/
theorem rename_noSelection (sys : System W) (gui : Gui W) (values : String → Option String)
    (hsel : gui.EntryManager.GetSelectEntry = none)
    (hname : mapIndex values "new name" ≠ "") :
    renameCallback sys values gui = (some ErrNoFileOrDir, gui) := by
  simp [renameCallback, hname, hsel]

/-- C7, amended, at a concrete state: the highlight is on the header and the
name `x` is submitted. -/
theorem rename_noSelection_witness :
    renameCallback simSystem (fun _ => some "x") (session aliceFS "/home/alice" 0)
      = (some ErrNoFileOrDir, session aliceFS "/home/alice" 0) :=
  rename_noSelection simSystem (session aliceFS "/home/alice" 0) (fun _ => some "x")
    (by decide) (by decide)

/-- C8: in a fresh session, where the Register holds no copy source, pressing
`p` dereferences the nil source (`source.Name`): the program panics, it does
not leave the state unchanged. -/
theorem paste_emptyRegister_panics :
    (session aliceFS "/home/alice" 2).Register.CopySource = none ∧
    EntryManagerInputCapture simSystem (press 'p') (session aliceFS "/home/alice" 2)
      = Except.error GoPanic.nilDereference := by
  constructor
  · rfl
  · simp [EntryManagerInputCapture, GlobalKeybinding, runeSwitch, press, session]

/-- C5: when the file-system primitive a mutating command calls returns an
error `e`, the callback of that command returns `e`, the directory is not read
again and the path text, the selected row, SelectionMemory and the Register are
as before: for delete (of a directory and of a file), paste, mkdir, new file
and rename. -/
theorem mutating_failure_atomic (sys : System W) (gui : Gui W) (e : GoError) :
    (∀ entry, gui.EntryManager.GetSelectEntry = some entry → entry.IsDir = true →
      (sys.RemoveDirAll entry.PathName gui.world).1 = some e →
      (removeCallback sys gui).1 = some e ∧
      abortedAfter (Call.RemoveDirAll entry.PathName) gui (removeCallback sys gui).2) ∧
    (∀ entry, gui.EntryManager.GetSelectEntry = some entry → entry.IsDir = false →
      (sys.RemoveFile entry.PathName gui.world).1 = some e →
      (removeCallback sys gui).1 = some e ∧
      abortedAfter (Call.RemoveFile entry.PathName) gui (removeCallback sys gui).2) ∧
    (∀ source values, mapIndex values "name" ≠ "" →
      (sys.CopyFile source.PathName (Join gui.InputPath (mapIndex values "name"))
        gui.world).1 = some e →
      (pasteCallback sys source values gui).1 = some e ∧
      abortedAfter
        (Call.CopyFile source.PathName (Join gui.InputPath (mapIndex values "name")))
        gui (pasteCallback sys source values gui).2) ∧
    (∀ values, mapIndex values "name" ≠ "" →
      (sys.NewDir (Join gui.InputPath (mapIndex values "name")) gui.world).1 = some e →
      (mkdirCallback sys values gui).1 = some e ∧
      abortedAfter (Call.NewDir (Join gui.InputPath (mapIndex values "name")))
        gui (mkdirCallback sys values gui).2) ∧
    (∀ values, mapIndex values "name" ≠ "" →
      (sys.NewFile (Join gui.InputPath (mapIndex values "name")) gui.world).1 = some e →
      (newFileCallback sys values gui).1 = some e ∧
      abortedAfter (Call.NewFile (Join gui.InputPath (mapIndex values "name")))
        gui (newFileCallback sys values gui).2) ∧
    (∀ entry values, gui.EntryManager.GetSelectEntry = some entry →
      mapIndex values "new name" ≠ "" →
      (sys.Rename entry.PathName (Join gui.InputPath (mapIndex values "new name"))
        gui.world).1 = some e →
      (renameCallback sys values gui).1 = some e ∧
      abortedAfter
        (Call.Rename entry.PathName (Join gui.InputPath (mapIndex values "new name")))
        gui (renameCallback sys values gui).2) := by
  refine ⟨?_, ?_, ?_, ?_, ?_, ?_⟩
  · intro entry hsel hdir herr
    simp [removeCallback, hsel, hdir, Gui.syscall, herr, abortedAfter]
  · intro entry hsel hdir herr
    simp [removeCallback, hsel, hdir, Gui.syscall, herr, abortedAfter]
  · intro source values hname herr
    simp [pasteCallback, hname, Gui.syscall, herr, abortedAfter]
  · intro values hname herr
    simp [mkdirCallback, hname, Gui.syscall, herr, abortedAfter]
  · intro values hname herr
    simp [newFileCallback, hname, Gui.syscall, herr, abortedAfter]
  · intro entry values hsel hname herr
    simp [renameCallback, hsel, hname, Gui.syscall, herr, abortedAfter]

/-- C5 on the read-only file system, where every primitive fails: deleting
the directory `projects` and the file `notes.txt`, and pasting, creating and
renaming under the name `x`. -/
theorem mutating_failure_atomic_witness :
    ((removeCallback simSystem (session aliceFSReadOnly "/home/alice" 2)).1 = some errReadOnly ∧
      abortedAfter (Call.RemoveDirAll "/home/alice/projects")
        (session aliceFSReadOnly "/home/alice" 2)
        (removeCallback simSystem (session aliceFSReadOnly "/home/alice" 2)).2) ∧
    ((removeCallback simSystem (session aliceFSReadOnly "/home/alice" 1)).1 = some errReadOnly ∧
      abortedAfter (Call.RemoveFile "/home/alice/notes.txt")
        (session aliceFSReadOnly "/home/alice" 1)
        (removeCallback simSystem (session aliceFSReadOnly "/home/alice" 1)).2) ∧
    ((pasteCallback simSystem notesTxt (nameValues "x")
        (session aliceFSReadOnly "/home/alice" 2)).1 = some errReadOnly ∧
      abortedAfter (Call.CopyFile "/home/alice/notes.txt" "/home/alice/x")
        (session aliceFSReadOnly "/home/alice" 2)
        (pasteCallback simSystem notesTxt (nameValues "x")
          (session aliceFSReadOnly "/home/alice" 2)).2) ∧
    ((mkdirCallback simSystem (nameValues "x")
        (session aliceFSReadOnly "/home/alice" 2)).1 = some errReadOnly ∧
      abortedAfter (Call.NewDir "/home/alice/x")
        (session aliceFSReadOnly "/home/alice" 2)
        (mkdirCallback simSystem (nameValues "x")
          (session aliceFSReadOnly "/home/alice" 2)).2) ∧
    ((newFileCallback simSystem (nameValues "x")
        (session aliceFSReadOnly "/home/alice" 2)).1 = some errReadOnly ∧
      abortedAfter (Call.NewFile "/home/alice/x")
        (session aliceFSReadOnly "/home/alice" 2)
        (newFileCallback simSystem (nameValues "x")
          (session aliceFSReadOnly "/home/alice" 2)).2) ∧
    ((renameCallback simSystem (fun _ => some "x")
        (session aliceFSReadOnly "/home/alice" 2)).1 = some errReadOnly ∧
      abortedAfter (Call.Rename "/home/alice/projects" "/home/alice/x")
        (session aliceFSReadOnly "/home/alice" 2)
        (renameCallback simSystem (fun _ => some "x")
          (session aliceFSReadOnly "/home/alice" 2)).2) :=
  ⟨(mutating_failure_atomic simSystem (session aliceFSReadOnly "/home/alice" 2)
      errReadOnly).1 projects (by decide) (by decide) (by decide),
    (mutating_failure_atomic simSystem (session aliceFSReadOnly "/home/alice" 1)
      errReadOnly).2.1 notesTxt (by decide) (by decide) (by decide),
    (mutating_failure_atomic simSystem (session aliceFSReadOnly "/home/alice" 2)
      errReadOnly).2.2.1 notesTxt (nameValues "x") (by decide) (by decide),
    (mutating_failure_atomic simSystem (session aliceFSReadOnly "/home/alice" 2)
      errReadOnly).2.2.2.1 (nameValues "x") (by decide) (by decide),
    (mutating_failure_atomic simSystem (session aliceFSReadOnly "/home/alice" 2)
      errReadOnly).2.2.2.2.1 (nameValues "x") (by decide) (by decide),
    (mutating_failure_atomic simSystem (session aliceFSReadOnly "/home/alice" 2)
      errReadOnly).2.2.2.2.2 projects (fun _ => some "x") (by decide) (by decide) (by decide)⟩

/-- C10: for a non-empty submitted name the `m` callback calls the
create-directory primitive exactly once, with target
`filepath.Join(current path, name)`, and nothing else but the re-listing that
follows a success. When the primitive succeeds the callback returns no error,
leaves the path text unchanged and shows the listing of the current path read
after the creation, so every entry the directory then has (the new one
included) is in the listing. -/
theorem mkdir_success (sys : System W) (gui : Gui W) (values : String → Option String)
    (hname : mapIndex values "name" ≠ "") :
    (mkdirCallback sys values gui).2.trace =
        gui.trace ++ Call.NewDir (Join gui.InputPath (mapIndex values "name")) ::
          (if (sys.NewDir (Join gui.InputPath (mapIndex values "name")) gui.world).1 = none
            then [Call.ReadDir gui.InputPath] else []) ∧
    (mkdirCallback sys values gui).2.world =
        (sys.NewDir (Join gui.InputPath (mapIndex values "name")) gui.world).2 ∧
    ((sys.NewDir (Join gui.InputPath (mapIndex values "name")) gui.world).1 = none →
      (mkdirCallback sys values gui).1 = none ∧
      (mkdirCallback sys values gui).2.InputPath = gui.InputPath ∧
      (mkdirCallback sys values gui).2.EntryManager.entries =
        sys.ReadDir gui.InputPath
          (sys.NewDir (Join gui.InputPath (mapIndex values "name")) gui.world).2 ∧
      ∀ entry ∈ sys.ReadDir gui.InputPath
          (sys.NewDir (Join gui.InputPath (mapIndex values "name")) gui.world).2,
        entry ∈ (mkdirCallback sys values gui).2.EntryManager.entries) := by
  cases hres : (sys.NewDir (Join gui.InputPath (mapIndex values "name")) gui.world).1 with
  | none =>
    simp [mkdirCallback, hname, Gui.syscall, hres, refresh, Gui.SetEntries,
      EntryManager.setListing]
  | some err =>
    simp [mkdirCallback, hname, Gui.syscall, hres]

/-- C10 in the scenario of the spec: at `/home/alice` the name `notes` is
submitted; the directory `/home/alice/notes` is created by the one call, no
error is returned, the path text stays and the listing shows `notes`. -/
theorem mkdir_success_witness :
    (mkdirCallback simSystem (nameValues "notes") (session aliceFS "/home/alice" 2)).2.trace
      = [Call.NewDir "/home/alice/notes", Call.ReadDir "/home/alice"] ∧
    (mkdirCallback simSystem (nameValues "notes") (session aliceFS "/home/alice" 2)).1 = none ∧
    (mkdirCallback simSystem (nameValues "notes") (session aliceFS "/home/alice" 2)).2.InputPath
      = "/home/alice" ∧
    (⟨"notes", "/home/alice/notes", true⟩ : Entry) ∈
      (mkdirCallback simSystem (nameValues "notes")
        (session aliceFS "/home/alice" 2)).2.EntryManager.entries := by
  have h := mkdir_success simSystem (session aliceFS "/home/alice" 2) (nameValues "notes")
    (by decide)
  have hok : (simSystem.NewDir (Join (session aliceFS "/home/alice" 2).InputPath
      (mapIndex (nameValues "notes") "name")) (session aliceFS "/home/alice" 2).world).1
      = none := by decide
  refine ⟨?_, (h.2.2 hok).1, (h.2.2 hok).2.1, (h.2.2 hok).2.2.2 _ (by decide)⟩
  rw [h.1, if_pos hok]
  decide

/-- Pressing `p` with a copy source opens the paste form for that source and
changes nothing else. -/
lemma press_p_opens (sys : System W) (gui : Gui W) (source : Entry)
    (hreg : gui.Register.CopySource = some source) :
    EntryManagerInputCapture sys (press 'p') gui =
      Except.ok (gui.openModal
        (Modal.Form [("name", source.Name)] "paste" "new name" "new_name" 7
          (Callback.paste source))) := by
  simp [EntryManagerInputCapture, GlobalKeybinding, runeSwitch, press, hreg]

/-- The paste callback keeps the Register and the path text, and its calls are
the one copy from the captured source (unless the name is empty), followed by
a re-listing or nothing. -/
lemma pasteCallback_frame (sys : System W) (source : Entry)
    (values : String → Option String) (gui : Gui W) :
    (pasteCallback sys source values gui).2.Register = gui.Register ∧
    (pasteCallback sys source values gui).2.InputPath = gui.InputPath ∧
    ∃ added, (pasteCallback sys source values gui).2.trace = gui.trace ++ added ∧
      copyCalls added =
        if mapIndex values "name" = "" then []
        else [Call.CopyFile source.PathName (Join gui.InputPath (mapIndex values "name"))] := by
  by_cases hname : mapIndex values "name" = ""
  · refine ⟨?_, ?_, [], ?_, ?_⟩ <;> simp [pasteCallback, hname, copyCalls]
  · cases hres : (sys.CopyFile source.PathName
        (Join gui.InputPath (mapIndex values "name")) gui.world).1 with
    | none =>
      refine ⟨?_, ?_, [Call.CopyFile source.PathName
        (Join gui.InputPath (mapIndex values "name")), Call.ReadDir gui.InputPath], ?_, ?_⟩ <;>
        simp [pasteCallback, hname, Gui.syscall, hres, refresh, Gui.SetEntries, copyCalls]
    | some err =>
      refine ⟨?_, ?_, [Call.CopyFile source.PathName
        (Join gui.InputPath (mapIndex values "name"))], ?_, ?_⟩ <;>
        simp [pasteCallback, hname, Gui.syscall, hres, copyCalls]

/-- One paste with a copy source in the Register succeeds as a key press,
keeps the Register and the path text, and copies from the source once unless
the name is empty. -/
lemma pasteWith_frame (sys : System W) (name : String) (gui : Gui W) (source : Entry)
    (hreg : gui.Register.CopySource = some source) :
    ∃ gui1 added, pasteWith sys name gui = Except.ok gui1 ∧
      gui1.Register = gui.Register ∧ gui1.InputPath = gui.InputPath ∧
      gui1.trace = gui.trace ++ added ∧
      copyCalls added =
        if name = "" then [] else [Call.CopyFile source.PathName (Join gui.InputPath name)] := by
  obtain ⟨h1, h2, added, h3, h4⟩ := pasteCallback_frame sys source (nameValues name)
    (gui.openModal (Modal.Form [("name", source.Name)] "paste" "new name" "new_name" 7
      (Callback.paste source)))
  have hidx : mapIndex (nameValues name) "name" = name := by simp [mapIndex, nameValues]
  rw [hidx] at h4
  refine ⟨((gui.openModal (Modal.Form [("name", source.Name)] "paste" "new name" "new_name" 7
    (Callback.paste source))).submit sys (nameValues name)).2, added, ?_, ?_, ?_, ?_, ?_⟩
  · simp only [pasteWith, press_p_opens sys gui source hreg]
  · simpa [Gui.submit, Gui.openModal, Modal.callback, Callback.run] using h1
  · simpa [Gui.submit, Gui.openModal, Modal.callback, Callback.run] using h2
  · simpa [Gui.submit, Gui.openModal, Modal.callback, Callback.run] using h3
  · simpa [Gui.openModal] using h4

/-- C9: pressing `y` with a selection sets `Register.CopySource` to exactly
the selected entry and changes nothing else; the paste callback leaves the
Register unchanged for every submitted name and every outcome of the copy; and
any number of consecutive pastes keep the Register and copy, once for each
non-empty name in turn, from the path of that same source into the current
directory. -/
theorem register_set_by_copy_kept_by_paste (sys : System W) :
    (∀ (gui : Gui W) (entry : Entry), gui.EntryManager.GetSelectEntry = some entry →
      EntryManagerInputCapture sys (press 'y') gui =
        Except.ok { gui with Register := { CopySource := some entry } }) ∧
    (∀ (source : Entry) (values : String → Option String) (gui : Gui W),
      (pasteCallback sys source values gui).2.Register = gui.Register) ∧
    (∀ (names : List String) (gui : Gui W) (source : Entry),
      gui.Register.CopySource = some source →
      ∃ gui1 added, pasteAll sys names gui = Except.ok gui1 ∧
        gui1.Register = gui.Register ∧ gui1.trace = gui.trace ++ added ∧
        copyCalls added = (names.filter (fun name => name ≠ "")).map
          (fun name => Call.CopyFile source.PathName (Join gui.InputPath name))) := by
  refine ⟨?_, ?_, ?_⟩
  · intro gui entry hsel
    simp [EntryManagerInputCapture, GlobalKeybinding, runeSwitch, press, hasEntry, hsel]
  · intro source values gui
    exact (pasteCallback_frame sys source values gui).1
  · intro names
    induction names with
    | nil =>
      intro gui source _
      exact ⟨gui, [], rfl, rfl, by simp, by simp [copyCalls]⟩
    | cons name names ih =>
      intro gui source hreg
      obtain ⟨g1, added1, hrun, hR, hP, hT, hC⟩ := pasteWith_frame sys name gui source hreg
      obtain ⟨g2, added2, hrun2, hR2, hT2, hC2⟩ := ih g1 source (by rw [hR]; exact hreg)
      refine ⟨g2, added1 ++ added2, ?_, ?_, ?_, ?_⟩
      · simp only [pasteAll, hrun, hrun2]
      · rw [hR2, hR]
      · rw [hT2, hT, List.append_assoc]
      · have hsplit : copyCalls (added1 ++ added2) = copyCalls added1 ++ copyCalls added2 := by
          simp [copyCalls]
        rw [hsplit, hC, hC2, hP]
        by_cases hname : name = "" <;> simp [hname]

/-- C9 at a concrete session: `y` on `notes.txt` fills the Register, and three
pastes, the second with an empty name, leave it filled with `notes.txt`. -/
theorem register_set_by_copy_kept_by_paste_witness :
    EntryManagerInputCapture simSystem (press 'y') (session aliceFS "/home/alice" 1) =
      Except.ok { session aliceFS "/home/alice" 1 with
        Register := { CopySource := some notesTxt } } ∧
    ∃ gui1 added,
      pasteAll simSystem ["a", "", "b"]
        { session aliceFS "/home/alice" 1 with Register := { CopySource := some notesTxt } }
        = Except.ok gui1 ∧
      gui1.Register = { CopySource := some notesTxt } ∧
      gui1.trace = [] ++ added ∧
      copyCalls added = [Call.CopyFile "/home/alice/notes.txt" "/home/alice/a",
        Call.CopyFile "/home/alice/notes.txt" "/home/alice/b"] := by
  refine ⟨(register_set_by_copy_kept_by_paste simSystem).1 _ notesTxt (by decide), ?_⟩
  obtain ⟨gui1, added, h1, h2, h3, h4⟩ :=
    (register_set_by_copy_kept_by_paste simSystem).2.2 ["a", "", "b"]
      { session aliceFS "/home/alice" 1 with Register := { CopySource := some notesTxt } }
      notesTxt rfl
  refine ⟨gui1, added, h1, h2, h3, ?_⟩
  rw [h4]
  decide

/-- A step of `Clean` keeps every kept component non-empty. -/
lemma cleanStep_nonempty (rooted : Bool) (stack : List (List Char)) (comp : List Char)
    (h : ∀ c ∈ stack, c ≠ []) : ∀ c ∈ cleanStep rooted stack comp, c ≠ [] := by
  by_cases h1 : comp = [] ∨ comp = ['.']
  · simpa [cleanStep, h1] using h
  · have hcomp : comp ≠ [] := fun hnil => h1 (Or.inl hnil)
    by_cases h2 : comp = ['.', '.']
    · cases stack with
      | nil => cases rooted <;> simp [cleanStep, h2]
      | cons top rest =>
        by_cases h3 : top = ['.', '.']
        · simpa [cleanStep, h2, h3] using h
        · have hrest : ∀ c ∈ rest, c ≠ [] := fun c hc => h c (List.mem_cons_of_mem _ hc)
          simpa [cleanStep, h2, h3] using hrest
    · intro c hc
      simp only [cleanStep, if_neg h1, if_neg h2] at hc
      rcases List.mem_cons.mp hc with rfl | hc
      · exact hcomp
      · exact h c hc

/-- All the steps of `Clean` keep every kept component non-empty. -/
lemma foldl_cleanStep_nonempty (rooted : Bool) (comps : List (List Char)) :
    ∀ stack : List (List Char), (∀ c ∈ stack, c ≠ []) →
      ∀ c ∈ comps.foldl (cleanStep rooted) stack, c ≠ [] := by
  induction comps with
  | nil => intro stack h; simpa using h
  | cons comp comps ih =>
    intro stack h
    simpa using ih (cleanStep rooted stack comp) (cleanStep_nonempty rooted stack comp h)

/-- Joining non-empty components, at least one, gives a non-empty path. -/
lemma joinSlash_ne_nil (kept : List (List Char)) (hne : kept ≠ [])
    (h : ∀ c ∈ kept, c ≠ []) : joinSlash kept ≠ [] := by
  match kept, hne, h with
  | [c], _, h => simpa [joinSlash] using h c (by simp)
  | c :: d :: rest, _, _ => simp [joinSlash]

/-- `Clean` never returns the empty path. -/
lemma cleanChars_ne_nil (path : List Char) : cleanChars path ≠ [] := by
  unfold cleanChars
  simp only
  split_ifs with h1 h2
  · simp
  · simp
  · apply joinSlash_ne_nil _ h2
    intro c hc
    rw [List.mem_reverse] at hc
    exact foldl_cleanStep_nonempty _ _ [] (by simp) c hc

/-- `filepath.Dir` never returns the empty string: the test `parent != ""` of
the `h` case always succeeds. -/
lemma Dir_ne_empty (path : String) : Dir path ≠ "" := by
  intro h
  have h2 : (Dir path).data = ("" : String).data := by rw [h]
  exact cleanChars_ne_nil _ h2

/-- C2: row 3 is remembered for `projects`, whose table now has 3 rows (the
header and two entries). After `l` the selected row is 3, one past the last
row, and not `min(3, 3 - 1) = 2`: the test `row > count` misses `row = count`. -/
theorem enterChild_clamp_misses_rowCount :
    projectsRemembered.EntryManager.GetSelectEntry = some projects ∧
    projectsRemembered.EntryManager.selectPos "/home/alice/projects" = some 3 ∧
    outcome (EntryManagerInputCapture simSystem (press 'l') projectsRemembered)
      = some ("/home/alice/projects", 3, 3) ∧
    (3 : Int) ≠ min 3 (3 - 1) := by
  decide

/-- C1: `projects` is entered, left on its last row 3 and entered again after
it lost an entry, so that its table has 3 rows. The row restored is 3, one
past the last row, not 3 clamped to the listing, which is 2. With the listing
unchanged the same round trip restores row 3 of 4. -/
theorem roundTrip_restores_past_end :
    outcome (roundTrip aliceFSShrunk) = some ("/home/alice/projects", 3, 3) ∧
    (3 : Int) ≠ min 3 (3 - 1) ∧
    outcome (roundTrip aliceFS) = some ("/home/alice/projects", 3, 4) := by
  decide

/-- The state after `h` when the selection handler does not fail. -/
lemma goToParent_eq (sys : System W) (current parent : String) (gui : Gui W) (row : Int)
    (hrow : ((if parent = current then some gui.EntryManager.row
      else gui.EntryManager.selectPos parent).getD 1) = row)
    (hsafe : gui.enablePreview = false ∨ row ≤ ((sys.ReadDir parent gui.world).length : Int)) :
    goToParent sys current parent gui = Except.ok
      { gui with
        InputPath := parent
        EntryManager :=
          { entries := sys.ReadDir parent gui.world
            selectPos := fun k =>
              if k = current then some gui.EntryManager.row else gui.EntryManager.selectPos k
            row := row, column := 0, rowOffset := 0, columnOffset := 0 }
        Preview :=
          if gui.enablePreview then
            EntryManager.GetSelectEntry
              { entries := sys.ReadDir parent gui.world
                selectPos := fun k =>
                  if k = current then some gui.EntryManager.row
                  else gui.EntryManager.selectPos k
                row := row, column := 0, rowOffset := 0, columnOffset := 0 }
          else gui.Preview
        trace := gui.trace ++ [Call.ReadDir parent] } := by
  simp only [goToParent, Gui.RestorePos, Gui.Select, SelectionChanged, Gui.SetEntries,
    Gui.SetText, Gui.refreshPreview, Gui.UpdateView, EntryManager.SetSelectPos,
    EntryManager.setListing, EntryManager.setSelected, EntryManager.SetOffset,
    EntryManager.GetSelection, EntryManager.Entries, hrow]
  cases hpre : gui.enablePreview with
  | false => simp
  | true =>
    simp only [hpre, Bool.true_eq_false, false_or] at hsafe
    by_cases hpos : row > 0
    · have hlt : row.toNat - 1 < (sys.ReadDir parent gui.world).length := by omega
      simp [hpos, List.getElem?_eq_getElem hlt]
    · simp [hpos]

/-- The state after `l` on a directory when the selection handler does not
fail: with `s` the row remembered for the child (row 1 if none) and `n` the
number of rows of its table, the row is `n - 1` when `s > n` and `s`
otherwise. The handler does not fail when the preview is off or `s` is a row
of the table. -/
lemma enterChild_row (sys : System W) (entry : Entry) (gui : Gui W)
    (hsel : gui.EntryManager.GetSelectEntry = some entry) (hdir : entry.IsDir = true)
    (hne : entry.PathName ≠ gui.InputPath)
    (hsafe : gui.enablePreview = false ∨
      (gui.EntryManager.selectPos entry.PathName).getD 1 ≤
        ((sys.ReadDir entry.PathName gui.world).length : Int)) :
    readAfter (GlobalKeybinding sys (press 'l') gui) (fun g => g.EntryManager.row) =
      some (if (gui.EntryManager.selectPos entry.PathName).getD 1 >
          ((sys.ReadDir entry.PathName gui.world).length : Int) + 1
        then ((sys.ReadDir entry.PathName gui.world).length : Int) + 1 - 1
        else (gui.EntryManager.selectPos entry.PathName).getD 1) := by
  simp only [GlobalKeybinding, press, hsel, hdir, enterChild, Gui.RestorePos, Gui.Select,
    SelectionChanged, clampSelection, Gui.SetEntries, Gui.SetText, Gui.refreshPreview,
    Gui.UpdateView, EntryManager.SetSelectPos, EntryManager.setListing,
    EntryManager.setSelected, EntryManager.GetSelection, EntryManager.GetRowCount,
    EntryManager.Entries, if_neg hne]
  generalize (gui.EntryManager.selectPos entry.PathName).getD 1 = s at hsafe ⊢
  cases hpre : gui.enablePreview with
  | false =>
    simp
    split_ifs <;> simp_all [readAfter]
  | true =>
    simp only [hpre, Bool.true_eq_false, false_or] at hsafe
    have hclamp : ¬ (s > ((sys.ReadDir entry.PathName gui.world).length : Int) + 1) := by omega
    by_cases hpos : s > 0
    · have hlt : s.toNat - 1 < (sys.ReadDir entry.PathName gui.world).length := by omega
      simp [hpos, hclamp, List.getElem?_eq_getElem hlt, readAfter]
    · simp [hpos, hclamp, readAfter]

/-- Away from `s = n` the row selected by `l` is `min(s, n - 1)`, when the
selection handler does not fail. -/
lemma enterChild_row_min (sys : System W) (entry : Entry) (gui : Gui W)
    (hsel : gui.EntryManager.GetSelectEntry = some entry) (hdir : entry.IsDir = true)
    (hne : entry.PathName ≠ gui.InputPath)
    (hsafe : gui.enablePreview = false ∨
      (gui.EntryManager.selectPos entry.PathName).getD 1 ≤
        ((sys.ReadDir entry.PathName gui.world).length : Int))
    (hsn : (gui.EntryManager.selectPos entry.PathName).getD 1 ≠
      ((sys.ReadDir entry.PathName gui.world).length : Int) + 1) :
    readAfter (GlobalKeybinding sys (press 'l') gui) (fun g => g.EntryManager.row) =
      some (min ((gui.EntryManager.selectPos entry.PathName).getD 1)
        (((sys.ReadDir entry.PathName gui.world).length : Int) + 1 - 1)) := by
  rw [enterChild_row sys entry gui hsel hdir hne hsafe]
  congr 1
  split_ifs with h
  · rw [min_eq_right]; omega
  · rw [min_eq_left]; omega

/-- Leaving a path with `h` records the selected row for that path, whenever
the key press returns. -/
lemma goToParent_records (sys : System W) (gui mid : Gui W)
    (hrun : GlobalKeybinding sys (press 'h') gui = Except.ok mid) :
    mid.EntryManager.selectPos gui.InputPath = some gui.EntryManager.row := by
  have hparent := Dir_ne_empty gui.InputPath
  simp only [GlobalKeybinding, press, goToParent] at hrun
  simp [hparent] at hrun
  split at hrun
  · simp at hrun
  · rename_i g1 hsel
    simp only [Except.ok.injEq] at hrun
    subst hrun
    simp only [Gui.RestorePos, Gui.Select, SelectionChanged] at hsel
    have hkeep : g1.EntryManager.selectPos gui.InputPath = some gui.EntryManager.row := by
      split_ifs at hsel
      · split at hsel
        · simp at hsel
        · simp only [Except.ok.injEq] at hsel
          subst hsel
          simp [Gui.UpdateView, Gui.SetEntries, Gui.SetText, EntryManager.SetSelectPos,
            EntryManager.setListing, EntryManager.setSelected, EntryManager.SetOffset,
            EntryManager.GetSelection]
      all_goals
        simp only [Except.ok.injEq] at hsel
        subst hsel
        simp [Gui.SetEntries, Gui.SetText, EntryManager.SetSelectPos,
          EntryManager.setListing, EntryManager.setSelected, EntryManager.SetOffset,
          EntryManager.GetSelection]
    simpa [Gui.refreshPreview, Gui.UpdateView, apply_ite] using hkeep

/-- The round trip in general. A path is left with `h` on row `r`; later, with
SelectionMemory untouched in between, `l` is pressed in another directory on a
directory entry with that path, whose table then has `n` rows. When the
selection handler does not fail (the preview is off, or `r` is a row of the
table), the row selected is `r` when `r ≤ n` and `n - 1` when `r > n`: it is
`r` clamped to the last row `n - 1` except when `r = n`. -/
lemma roundTrip_row (sys : System W) (left mid back : Gui W) (entry : Entry)
    (hleft : GlobalKeybinding sys (press 'h') left = Except.ok mid)
    (hmem : back.EntryManager.selectPos = mid.EntryManager.selectPos)
    (hsel : back.EntryManager.GetSelectEntry = some entry) (hdir : entry.IsDir = true)
    (hpath : entry.PathName = left.InputPath) (hne : entry.PathName ≠ back.InputPath)
    (hsafe : back.enablePreview = false ∨
      left.EntryManager.row ≤ ((sys.ReadDir entry.PathName back.world).length : Int)) :
    readAfter (GlobalKeybinding sys (press 'l') back) (fun g => g.EntryManager.row) =
      some (if left.EntryManager.row >
          ((sys.ReadDir entry.PathName back.world).length : Int) + 1
        then ((sys.ReadDir entry.PathName back.world).length : Int) + 1 - 1
        else left.EntryManager.row) := by
  have hrec : (back.EntryManager.selectPos entry.PathName).getD 1 = left.EntryManager.row := by
    rw [hmem, hpath, goToParent_records sys left mid hleft]
    rfl
  rw [enterChild_row sys entry back hsel hdir hne (by rw [hrec]; exact hsafe), hrec]

/-- With the preview on, `h` at the root fails when the selected row is beyond
the listing read anew: the selection handler indexes `Entries()[row-1]`. -/
lemma goToParent_at_root_stale :
    rootStale.InputPath = "/" ∧
    rootStale.EntryManager.row = 2 ∧
    simSystem.ReadDir "/" rootStale.world = [⟨"home", "/home", true⟩] ∧
    readAfter (EntryManagerInputCapture simSystem (press 'h') rootStale)
      (fun g => g.EntryManager.row) = none := by
  decide

/-- C3, as stated, fails: at the root, with nothing remembered and the view
scrolled down by three rows, pressing `h` records row 1 for `/` in
SelectionMemory, resets the scroll offset to the top and reads the directory
again. -/
theorem goToParent_at_root_writes :
    rootScrolled.InputPath = "/" ∧
    rootScrolled.EntryManager.selectPos "/" = none ∧
    readAfter (EntryManagerInputCapture simSystem (press 'h') rootScrolled)
      (fun g => g.EntryManager.selectPos "/") = some (some 1) ∧
    rootScrolled.EntryManager.rowOffset = 3 ∧
    readAfter (EntryManagerInputCapture simSystem (press 'h') rootScrolled)
      (fun g => g.EntryManager.rowOffset) = some 0 ∧
    rootScrolled.trace = [] ∧
    readAfter (EntryManagerInputCapture simSystem (press 'h') rootScrolled)
      (fun g => g.trace) = some [Call.ReadDir "/"] := by
  decide

/-- C3, amended: when the path text is `/` and the preview is off or the
selected row is not beyond the listing of `/` read anew, pressing `h` returns
and leaves the path text and the selected row unchanged, shows the listing of
`/` read anew (one read, of a world it does not change, so the listing is the
same whenever the directory is), resets the scroll offset to the top, records
the selected row for `/` in SelectionMemory and leaves what is remembered for
every other path, and the Register, unchanged. -/
theorem goToParent_at_root (sys : System W) (gui : Gui W) (hroot : gui.InputPath = "/")
    (hsafe : gui.enablePreview = false ∨
      gui.EntryManager.row ≤ ((sys.ReadDir "/" gui.world).length : Int)) :
    ∃ gui1, EntryManagerInputCapture sys (press 'h') gui = Except.ok gui1 ∧
      gui1.InputPath = gui.InputPath ∧
      gui1.EntryManager.row = gui.EntryManager.row ∧
      gui1.EntryManager.entries = sys.ReadDir "/" gui.world ∧
      gui1.trace = gui.trace ++ [Call.ReadDir "/"] ∧
      gui1.world = gui.world ∧
      gui1.EntryManager.rowOffset = 0 ∧
      gui1.EntryManager.columnOffset = 0 ∧
      gui1.EntryManager.selectPos "/" = some gui.EntryManager.row ∧
      (∀ path, path ≠ "/" →
        gui1.EntryManager.selectPos path = gui.EntryManager.selectPos path) ∧
      gui1.Register = gui.Register := by
  have hdir : Dir "/" = "/" := by decide
  have hgo := goToParent_eq sys "/" "/" gui gui.EntryManager.row (by simp) hsafe
  have hkey : GlobalKeybinding sys (press 'h') gui = goToParent sys "/" "/" gui := by
    simp [GlobalKeybinding, press, hroot, hdir]
  obtain ⟨gui1, hrun, hstate⟩ :
      ∃ gui1, goToParent sys "/" "/" gui = Except.ok gui1 ∧ gui1 = _ := ⟨_, hgo, rfl⟩
  have hcap : EntryManagerInputCapture sys (press 'h') gui = Except.ok gui1 := by
    simp only [EntryManagerInputCapture, hkey, hrun]
    simp [runeSwitch, press]
  refine ⟨gui1, hcap, ?_⟩
  subst hstate
  simp [hroot]
  intro path hpath
  simp [hpath]

/-- C3, amended, at the root session with the preview on and the highlight on
`home`, row 1 of the one-entry listing. -/
theorem goToParent_at_root_witness :
    ∃ gui1, EntryManagerInputCapture simSystem (press 'h') rootPreview = Except.ok gui1 ∧
      gui1.InputPath = rootPreview.InputPath ∧
      gui1.EntryManager.row = rootPreview.EntryManager.row ∧
      gui1.EntryManager.entries = simSystem.ReadDir "/" rootPreview.world ∧
      gui1.trace = rootPreview.trace ++ [Call.ReadDir "/"] ∧
      gui1.world = rootPreview.world ∧
      gui1.EntryManager.rowOffset = 0 ∧
      gui1.EntryManager.columnOffset = 0 ∧
      gui1.EntryManager.selectPos "/" = some rootPreview.EntryManager.row ∧
      (∀ path, path ≠ "/" →
        gui1.EntryManager.selectPos path = rootPreview.EntryManager.selectPos path) ∧
      gui1.Register = rootPreview.Register :=
  goToParent_at_root simSystem rootPreview rfl (Or.inr (by decide))

end FF
